import Mathlib

/-!
Verification of the youtube_url_stt core against its specification.

The data model and operations below are shallow embeddings of the Python
source (src/core/merger.py, src/core/preprocessor.py, src/core/diarizer.py,
src/core/pipeline.py, src/utils/device.py).  Timestamps and sample values
are modelled as rationals (the source uses IEEE floats); fallible code is
modelled with `Except`/`Option`.
-/

/-- Word-level segment (src/core/transcriber.py `WordSegment`). -/
structure WordSegment where
  word : String
  start : ℚ
  «end» : ℚ
  probability : ℚ := 0
deriving DecidableEq, Repr, Inhabited

/-- Sentence-level segment (src/core/transcriber.py `TranscriptSegment`). -/
structure TranscriptSegment where
  text : String
  start : ℚ
  «end» : ℚ
  words : List WordSegment := []
deriving DecidableEq, Repr, Inhabited

/-- Transcription result (src/core/transcriber.py `TranscriptResult`). -/
structure TranscriptResult where
  segments : List TranscriptSegment
  language : String := ""
  language_probability : ℚ := 0
  duration : ℚ := 0
deriving DecidableEq, Repr, Inhabited

/-- Diarization span (src/core/diarizer.py `DiarizeSegment`). -/
structure DiarizeSegment where
  speaker : String
  start : ℚ
  «end» : ℚ
deriving DecidableEq, Repr, Inhabited

/-- Diarization result (src/core/diarizer.py `DiarizeResult`). -/
structure DiarizeResult where
  segments : List DiarizeSegment
  num_speakers : Nat
deriving DecidableEq, Repr, Inhabited

/-- Merged segment (src/core/merger.py `MergedSegment`). -/
structure MergedSegment where
  speaker : String
  text : String
  start : ℚ
  «end» : ℚ
  words : List WordSegment := []
deriving DecidableEq, Repr, Inhabited

/-- Final merged result (src/core/merger.py `MergedResult`). -/
structure MergedResult where
  segments : List MergedSegment
  num_speakers : Nat
  language : String := ""
  duration : ℚ := 0
deriving DecidableEq, Repr, Inhabited

/-- Distance from `t` to the nearer endpoint of span `s`
(the quantity `min(abs(t - s.start), abs(t - s.end))` of merger.py:179). -/
def endpointDist (t : ℚ) (s : DiarizeSegment) : ℚ :=
  min |t - s.start| |t - s.«end»|

/-- `d < m` where `none` stands for `float("inf")` (merger.py:172,180). -/
def ltInf (d : ℚ) : Option ℚ → Bool
  | none => true
  | some m => decide (d < m)

/-- The scan loop of `ResultMerger._find_speaker_at` (merger.py:174-183),
carrying `best_speaker` and `min_distance`. -/
def findLoop (t : ℚ) (best : String) (minD : Option ℚ) :
    List DiarizeSegment → String
  | [] => best
  | s :: rest =>
    if s.start ≤ t ∧ t ≤ s.«end» then s.speaker
    else if ltInf (endpointDist t s) minD then
      findLoop t s.speaker (some (endpointDist t s)) rest
    else
      findLoop t best minD rest

/-- `ResultMerger._find_speaker_at` (merger.py:168-184). -/
def ResultMerger.find_speaker_at (t : ℚ) (segs : List DiarizeSegment) : String :=
  findLoop t "SPEAKER_0" none segs

/-- The synthetic one-word span for a transcript segment without word
timestamps (merger.py:102-106). -/
def synthWord (seg : TranscriptSegment) : WordSegment :=
  { word := seg.text, start := seg.start, «end» := seg.«end» }

/-- Step 1 of `_word_level_merge` (merger.py:96-106): flatten all transcript
segments into one word list. -/
def flattenWords (t : TranscriptResult) : List WordSegment :=
  (t.segments.map (fun seg =>
    if seg.words.isEmpty then [synthWord seg] else seg.words)).flatten

/-- Closing one accumulated run of same-speaker words into a `MergedSegment`
(merger.py:132-138 and 147-154).  `current_speaker or "SPEAKER_0"` in Python
treats both `None` and the empty string as falsy. -/
def flushSeg (cur : Option String) (curWords : List WordSegment)
    (curTexts : List String) : MergedSegment :=
  { speaker := match cur with
      | none => "SPEAKER_0"
      | some s => if s = "" then "SPEAKER_0" else s
    text := (String.intercalate " " curTexts).trim
    start := (curWords.headD default).start
    «end» := (curWords.getLastD default).«end»
    words := curWords }

/-- Step 3 of `_word_level_merge` (merger.py:123-154): group consecutive
words with the same resolved speaker. -/
def groupLoop (cur : Option String) (curWords : List WordSegment)
    (curTexts : List String) :
    List (WordSegment × String) → List MergedSegment
  | [] => if curWords.isEmpty then [] else [flushSeg cur curWords curTexts]
  | (w, sp) :: rest =>
    if cur ≠ some sp ∧ ¬ curWords.isEmpty then
      flushSeg cur curWords curTexts :: groupLoop (some sp) [w] [w.word] rest
    else
      groupLoop (some sp) (curWords ++ [w]) (curTexts ++ [w.word]) rest

/-- `ResultMerger._word_level_merge` (merger.py:88-166). -/
def ResultMerger.word_level_merge (t : TranscriptResult) (d : DiarizeResult) :
    MergedResult :=
  let all_words := flattenWords t
  if all_words.isEmpty then
    { segments := []
      num_speakers := d.num_speakers
      language := t.language
      duration := t.duration }
  else
    let word_speakers := all_words.map (fun w =>
      (w, ResultMerger.find_speaker_at ((w.start + w.«end») / 2) d.segments))
    { segments := groupLoop none [] [] word_speakers
      num_speakers := d.num_speakers
      language := t.language
      duration := t.duration }

/-- `ResultMerger._single_speaker_merge` (merger.py:68-86). -/
def ResultMerger.single_speaker_merge (t : TranscriptResult) : MergedResult :=
  { segments := t.segments.map (fun seg =>
      { speaker := "SPEAKER_0"
        text := seg.text
        start := seg.start
        «end» := seg.«end»
        words := seg.words })
    num_speakers := 1
    language := t.language
    duration := t.duration }

/-- `ResultMerger.merge` (merger.py:41-66). -/
def ResultMerger.merge (t : TranscriptResult) (diarize : Option DiarizeResult) :
    MergedResult :=
  match diarize with
  | none => ResultMerger.single_speaker_merge t
  | some d =>
    if d.segments.isEmpty then ResultMerger.single_speaker_merge t
    else ResultMerger.word_level_merge t d

/-- C5: with no diarization input (or an empty span list) every transcript
segment is emitted unchanged under the synthetic label `SPEAKER_0`, and the
reported speaker count is 1. -/
theorem merge_no_spans_single_speaker (t : TranscriptResult)
    (dia : Option DiarizeResult)
    (h : dia = none ∨ ∃ d, dia = some d ∧ d.segments = []) :
    (ResultMerger.merge t dia).segments = t.segments.map (fun seg =>
      { speaker := "SPEAKER_0"
        text := seg.text
        start := seg.start
        «end» := seg.«end»
        words := seg.words }) ∧
    (ResultMerger.merge t dia).num_speakers = 1 := by
  rcases h with h | ⟨d, hd, hsegs⟩
  · subst h
    exact ⟨rfl, rfl⟩
  · subst hd
    simp [ResultMerger.merge, hsegs, ResultMerger.single_speaker_merge]

/-- Witness for C5 at a concrete transcript and `none` spans. -/
theorem merge_no_spans_single_speaker_witness :
    (ResultMerger.merge
        { segments := [{ text := "hi", start := 0, «end» := 1, words := [] }],
          language := "en", duration := 1 }
        none).segments =
      [{ speaker := "SPEAKER_0", text := "hi", start := 0, «end» := 1,
         words := [] }] ∧
    (ResultMerger.merge
        { segments := [{ text := "hi", start := 0, «end» := 1, words := [] }],
          language := "en", duration := 1 }
        none).num_speakers = 1 := by
  have h := merge_no_spans_single_speaker
    { segments := [{ text := "hi", start := 0, «end» := 1, words := [] }],
      language := "en", duration := 1 }
    none (Or.inl rfl)
  exact ⟨h.1.trans rfl, h.2⟩

/-- C10: `merge` never alters transcript metadata — the language and duration
of the result equal those of the input transcript in every branch. -/
theorem merge_preserves_metadata (t : TranscriptResult)
    (dia : Option DiarizeResult) :
    (ResultMerger.merge t dia).language = t.language ∧
    (ResultMerger.merge t dia).duration = t.duration := by
  cases dia with
  | none => exact ⟨rfl, rfl⟩
  | some d =>
    by_cases hd : d.segments.isEmpty <;>
      by_cases hw : (flattenWords t).isEmpty <;>
      simp [ResultMerger.merge, hd, ResultMerger.single_speaker_merge,
        ResultMerger.word_level_merge, hw]

/-- The word midpoint `(start+end)/2` used for speaker lookup (merger.py:119). -/
def midTime (w : WordSegment) : ℚ :=
  (w.start + w.«end») / 2

/-- Span containment test of merger.py:175: `seg.start <= t <= seg.end`. -/
def inSpan (s : DiarizeSegment) (t : ℚ) : Prop :=
  s.start ≤ t ∧ t ≤ s.«end»

instance (s : DiarizeSegment) (t : ℚ) : Decidable (inSpan s t) :=
  inferInstanceAs (Decidable (_ ∧ _))

/-- If some span of the scanned list contains `t`, the scan loop returns the
label of the first such span, whatever the running best/min-distance state. -/
theorem findLoop_contains (t : ℚ) (segs : List DiarizeSegment)
    (hex : ∃ r ∈ segs, inSpan r t) :
    ∃ pre s post, segs = pre ++ s :: post ∧ inSpan s t ∧
      (∀ r ∈ pre, ¬ inSpan r t) ∧
      ∀ best minD, findLoop t best minD segs = s.speaker := by
  induction segs with
  | nil => simp at hex
  | cons s0 rest ih =>
    by_cases h0 : inSpan s0 t
    · refine ⟨[], s0, rest, rfl, h0, by simp, fun best minD => ?_⟩
      simp only [findLoop, if_pos (show s0.start ≤ t ∧ t ≤ s0.«end» from h0)]
    · obtain ⟨r, hr, hrs⟩ := hex
      rcases List.mem_cons.mp hr with rfl | hr'
      · exact absurd hrs h0
      · obtain ⟨pre, s, post, heq, hs, hpre, hrun⟩ := ih ⟨r, hr', hrs⟩
        refine ⟨s0 :: pre, s, post, by simp [heq], hs, ?_, fun best minD => ?_⟩
        · intro r' hr'
          rcases List.mem_cons.mp hr' with rfl | hmem
          · exact h0
          · exact hpre r' hmem
        · simp only [findLoop,
            if_neg (show ¬ (s0.start ≤ t ∧ t ≤ s0.«end») from h0)]
          by_cases hlt : ltInf (endpointDist t s0) minD = true
          · rw [if_pos hlt, hrun]
          · rw [if_neg hlt, hrun]

/-- Fallback invariant of the scan loop: starting from a finite running
minimum `m`, either no scanned span improves on `m` and the running best label
is returned, or the label of the first span attaining the minimal
nearer-endpoint distance below `m` is returned. -/
theorem findLoop_fallback (t : ℚ) (segs : List DiarizeSegment)
    (hnone : ∀ r ∈ segs, ¬ inSpan r t) (best : String) (m : ℚ) :
    ((∀ r ∈ segs, m ≤ endpointDist t r) ∧
      findLoop t best (some m) segs = best) ∨
    (∃ pre s post, segs = pre ++ s :: post ∧ endpointDist t s < m ∧
      findLoop t best (some m) segs = s.speaker ∧
      (∀ r ∈ segs, endpointDist t s ≤ endpointDist t r) ∧
      (∀ r ∈ pre, endpointDist t s < endpointDist t r)) := by
  induction segs generalizing best m with
  | nil => exact Or.inl ⟨by simp, rfl⟩
  | cons s0 rest ih =>
    have h0 : ¬ inSpan s0 t := hnone s0 (List.mem_cons_self s0 rest)
    have hrest : ∀ r ∈ rest, ¬ inSpan r t :=
      fun r hr => hnone r (List.mem_cons_of_mem s0 hr)
    by_cases hlt : endpointDist t s0 < m
    · have hstep : findLoop t best (some m) (s0 :: rest) =
          findLoop t s0.speaker (some (endpointDist t s0)) rest := by
        simp only [findLoop, if_neg (show ¬ (s0.start ≤ t ∧ t ≤ s0.«end») from h0),
          ltInf, decide_eq_true_eq, if_pos hlt]
      rcases ih hrest s0.speaker (endpointDist t s0) with ⟨hall, heq⟩ |
        ⟨pre, s, post, heqL, hlt', heq, hmin, hpre⟩
      · refine Or.inr ⟨[], s0, rest, rfl, hlt, by rw [hstep, heq], ?_, by simp⟩
        intro r hr
        rcases List.mem_cons.mp hr with rfl | hmem
        · exact le_refl _
        · exact hall r hmem
      · refine Or.inr ⟨s0 :: pre, s, post, by simp [heqL], lt_trans hlt' hlt,
          by rw [hstep, heq], ?_, ?_⟩
        · intro r hr
          rcases List.mem_cons.mp hr with rfl | hmem
          · exact le_of_lt hlt'
          · exact hmin r hmem
        · intro r hr
          rcases List.mem_cons.mp hr with rfl | hmem
          · exact hlt'
          · exact hpre r hmem
    · have hstep : findLoop t best (some m) (s0 :: rest) =
          findLoop t best (some m) rest := by
        simp only [findLoop, if_neg (show ¬ (s0.start ≤ t ∧ t ≤ s0.«end») from h0),
          ltInf, decide_eq_true_eq, if_neg hlt]
      rcases ih hrest best m with ⟨hall, heq⟩ |
        ⟨pre, s, post, heqL, hlt', heq, hmin, hpre⟩
      · refine Or.inl ⟨?_, by rw [hstep, heq]⟩
        intro r hr
        rcases List.mem_cons.mp hr with rfl | hmem
        · exact le_of_not_lt hlt
        · exact hall r hmem
      · refine Or.inr ⟨s0 :: pre, s, post, by simp [heqL], hlt',
          by rw [hstep, heq], ?_, ?_⟩
        · intro r hr
          rcases List.mem_cons.mp hr with rfl | hmem
          · exact le_of_lt (lt_of_lt_of_le hlt' (le_of_not_lt hlt))
          · exact hmin r hmem
        · intro r hr
          rcases List.mem_cons.mp hr with rfl | hmem
          · exact lt_of_lt_of_le hlt' (le_of_not_lt hlt)
          · exact hpre r hmem

/-- C2: speaker resolution for a word over a non-empty span list.  Either
some span contains the word's midpoint and the label of the first containing
span (in scan order) is returned, or no span contains it and the label of the
first span whose nearer endpoint is closest to the midpoint is returned
(ties broken by scan order).  A midpoint on a shared boundary of two spans is
contained in both, so it resolves through the first disjunct, never the
fallback. -/
theorem find_speaker_at_midpoint_spec (w : WordSegment)
    (segs : List DiarizeSegment) (hne : segs ≠ []) :
    (∃ pre s post, segs = pre ++ s :: post ∧ inSpan s (midTime w) ∧
      (∀ r ∈ pre, ¬ inSpan r (midTime w)) ∧
      ResultMerger.find_speaker_at (midTime w) segs = s.speaker) ∨
    ((∀ r ∈ segs, ¬ inSpan r (midTime w)) ∧
      ∃ pre s post, segs = pre ++ s :: post ∧
        ResultMerger.find_speaker_at (midTime w) segs = s.speaker ∧
        (∀ r ∈ segs, endpointDist (midTime w) s ≤ endpointDist (midTime w) r) ∧
        (∀ r ∈ pre, endpointDist (midTime w) s < endpointDist (midTime w) r)) := by
  set t := midTime w with ht
  by_cases hex : ∃ r ∈ segs, inSpan r t
  · obtain ⟨pre, s, post, heq, hs, hpre, hrun⟩ := findLoop_contains t segs hex
    exact Or.inl ⟨pre, s, post, heq, hs, hpre, hrun "SPEAKER_0" none⟩
  · push_neg at hex
    cases segs with
    | nil => exact absurd rfl hne
    | cons s0 rest =>
      have h0 : ¬ inSpan s0 t := hex s0 (List.mem_cons_self s0 rest)
      have hrest : ∀ r ∈ rest, ¬ inSpan r t :=
        fun r hr => hex r (List.mem_cons_of_mem s0 hr)
      have hstep : ResultMerger.find_speaker_at t (s0 :: rest) =
          findLoop t s0.speaker (some (endpointDist t s0)) rest := by
        simp only [ResultMerger.find_speaker_at, findLoop,
          if_neg (show ¬ (s0.start ≤ t ∧ t ≤ s0.«end») from h0), ltInf, if_pos]
      refine Or.inr ⟨hex, ?_⟩
      rcases findLoop_fallback t rest hrest s0.speaker (endpointDist t s0) with
        ⟨hall, heq⟩ | ⟨pre, s, post, heqL, hlt', heq, hmin, hpre⟩
      · refine ⟨[], s0, rest, rfl, by rw [hstep, heq], ?_, by simp⟩
        intro r hr
        rcases List.mem_cons.mp hr with rfl | hmem
        · exact le_refl _
        · exact hall r hmem
      · refine ⟨s0 :: pre, s, post, by simp [heqL], by rw [hstep, heq], ?_, ?_⟩
        · intro r hr
          rcases List.mem_cons.mp hr with rfl | hmem
          · exact le_of_lt hlt'
          · exact hmin r hmem
        · intro r hr
          rcases List.mem_cons.mp hr with rfl | hmem
          · exact hlt'
          · exact hpre r hmem

/-- Concrete word and span list exercising C2: the midpoint 1/2 lies exactly
on the boundary shared by the two spans. -/
def c2word : WordSegment :=
  { word := "hello", start := 0, «end» := 1 }

/-- Two adjacent spans with shared boundary at 1/2. -/
def c2spans : List DiarizeSegment :=
  [{ speaker := "SPEAKER_0", start := 0, «end» := 1/2 },
   { speaker := "SPEAKER_1", start := 1/2, «end» := 1 }]

/-- Witness for C2 at a concrete boundary configuration. -/
theorem find_speaker_at_midpoint_spec_witness :
    c2spans ≠ [] ∧
    ((∃ pre s post, c2spans = pre ++ s :: post ∧ inSpan s (midTime c2word) ∧
      (∀ r ∈ pre, ¬ inSpan r (midTime c2word)) ∧
      ResultMerger.find_speaker_at (midTime c2word) c2spans = s.speaker) ∨
    ((∀ r ∈ c2spans, ¬ inSpan r (midTime c2word)) ∧
      ∃ pre s post, c2spans = pre ++ s :: post ∧
        ResultMerger.find_speaker_at (midTime c2word) c2spans = s.speaker ∧
        (∀ r ∈ c2spans,
          endpointDist (midTime c2word) s ≤ endpointDist (midTime c2word) r) ∧
        (∀ r ∈ pre,
          endpointDist (midTime c2word) s < endpointDist (midTime c2word) r))) :=
  ⟨by decide, find_speaker_at_midpoint_spec c2word c2spans (by decide)⟩

/-- Validity of a flattened word list: each word's interval is ordered and
consecutive words do not overlap (words arrive in temporal order from the
transcriber). -/
def WordsOK (l : List WordSegment) : Prop :=
  (∀ w ∈ l, w.start ≤ w.«end») ∧ l.Chain' (fun a b => a.«end» ≤ b.start)

instance (l : List WordSegment) : Decidable (WordsOK l) :=
  inferInstanceAs (Decidable (_ ∧ _))

/-- The grouping loop emits every accumulated and incoming word exactly once,
in order: the concatenation of the emitted segments' word lists is the
accumulator followed by the words of the remaining input. -/
theorem groupLoop_words_flatten (ws : List (WordSegment × String))
    (cur : Option String) (curWords : List WordSegment)
    (curTexts : List String) :
    ((groupLoop cur curWords curTexts ws).map MergedSegment.words).flatten =
      curWords ++ ws.map Prod.fst := by
  induction ws generalizing cur curWords curTexts with
  | nil =>
    simp only [groupLoop, List.map_nil, List.append_nil]
    by_cases h : curWords.isEmpty
    · rw [if_pos h]
      simp [List.isEmpty_iff.mp h]
    · rw [if_neg h]
      simp [flushSeg]
  | cons p rest ih =>
    obtain ⟨w, sp⟩ := p
    simp only [groupLoop]
    by_cases h : cur ≠ some sp ∧ ¬ curWords.isEmpty
    · rw [if_pos h]
      simp [flushSeg, ih]
    · rw [if_neg h]
      rw [ih]
      simp

/-- Structural invariant of every segment the grouping loop emits: it has a
non-empty word list, starts at its first word's start and ends at its last
word's end (merger.py:132-138, 147-154). -/
def BlockOK (s : MergedSegment) : Prop :=
  s.words ≠ [] ∧ s.start = (s.words.headD default).start ∧
    s.«end» = (s.words.getLastD default).«end»

theorem groupLoop_blockOK (ws : List (WordSegment × String))
    (cur : Option String) (curWords : List WordSegment)
    (curTexts : List String) :
    ∀ s ∈ groupLoop cur curWords curTexts ws, BlockOK s := by
  induction ws generalizing cur curWords curTexts with
  | nil =>
    intro s hs
    simp only [groupLoop] at hs
    by_cases h : curWords.isEmpty
    · rw [if_pos h] at hs
      simp at hs
    · rw [if_neg h] at hs
      rcases List.mem_singleton.mp hs with rfl
      refine ⟨?_, rfl, rfl⟩
      intro hnil
      simp only [flushSeg] at hnil
      exact h (by simp [hnil])
  | cons p rest ih =>
    obtain ⟨w, sp⟩ := p
    intro s hs
    simp only [groupLoop] at hs
    by_cases h : cur ≠ some sp ∧ ¬ curWords.isEmpty
    · rw [if_pos h] at hs
      rcases List.mem_cons.mp hs with rfl | hmem
      · refine ⟨?_, rfl, rfl⟩
        intro hnil
        simp only [flushSeg] at hnil
        exact h.2 (by simp [hnil])
      · exact ih _ _ _ s hmem
    · rw [if_neg h] at hs
      exact ih _ _ _ s hs

/-- A valid word list is pairwise temporally separated. -/
theorem wordsOK_pairwise (l : List WordSegment) :
    WordsOK l → l.Pairwise (fun a b => a.«end» ≤ b.start) := by
  induction l with
  | nil => exact fun _ => List.Pairwise.nil
  | cons a tl ih =>
    rintro ⟨hmem, hchain⟩
    have hmem' : ∀ w ∈ tl, w.start ≤ w.«end» :=
      fun w hw => hmem w (List.mem_cons_of_mem a hw)
    have hp : tl.Pairwise (fun a b => a.«end» ≤ b.start) :=
      ih ⟨hmem', hchain.tail⟩
    refine List.Pairwise.cons (fun b hb => ?_) hp
    cases tl with
    | nil => simp at hb
    | cons c tl' =>
      have hac : a.«end» ≤ c.start := (List.chain'_cons.mp hchain).1
      rcases List.mem_cons.mp hb with rfl | hb'
      · exact hac
      · have hcb : c.«end» ≤ b.start := (List.pairwise_cons.mp hp).1 b hb'
        have hcc : c.start ≤ c.«end» := hmem' c (List.mem_cons_self c tl')
        linarith

theorem headD_mem {α : Type} (l : List α) (d : α) (h : l ≠ []) :
    l.headD d ∈ l := by
  cases l with
  | nil => exact absurd rfl h
  | cons a tl => exact List.mem_cons_self a tl

theorem getLastD_mem {α : Type} (l : List α) (d : α) (h : l ≠ []) :
    l.getLastD d ∈ l := by
  induction l generalizing d with
  | nil => exact absurd rfl h
  | cons a tl ih =>
    cases tl with
    | nil => simp [List.getLastD]
    | cons b tl' =>
      rw [List.getLastD_cons]
      exact List.mem_cons_of_mem a (ih a (by simp))

/-- In a pairwise separated word list with ordered intervals, the first
word starts no later than the last word ends. -/
theorem head_start_le_last_end (l : List WordSegment) (d1 d2 : WordSegment)
    (hne : l ≠ [])
    (hp : l.Pairwise (fun a b => a.«end» ≤ b.start))
    (hmem : ∀ w ∈ l, w.start ≤ w.«end») :
    (l.headD d1).start ≤ (l.getLastD d2).«end» := by
  induction l generalizing d1 d2 with
  | nil => exact absurd rfl hne
  | cons a tl ih =>
    cases tl with
    | nil =>
      simpa [List.getLastD] using hmem a (List.mem_cons_self a [])
    | cons b tl' =>
      rw [List.getLastD_cons]
      have hstep : (List.headD (b :: tl') b).start ≤
          ((b :: tl').getLastD a).«end» := by
        refine ih b a (by simp) (List.pairwise_cons.mp hp).2 ?_
        exact fun w hw => hmem w (List.mem_cons_of_mem a hw)
      have hab : a.«end» ≤ b.start :=
        (List.pairwise_cons.mp hp).1 b (List.mem_cons_self b tl')
      have haa : a.start ≤ a.«end» := hmem a (List.mem_cons_self a _)
      simp only [List.headD] at hstep ⊢
      linarith

/-- From block structure and pairwise-separated underlying words, the emitted
segments themselves are pairwise separated and have ordered intervals. -/
theorem blocks_pairwise (ss : List MergedSegment) :
    (∀ s ∈ ss, BlockOK s) →
    ((ss.map MergedSegment.words).flatten).Pairwise
      (fun a b => a.«end» ≤ b.start) →
    (∀ w ∈ (ss.map MergedSegment.words).flatten, w.start ≤ w.«end») →
    ss.Pairwise (fun a b => a.«end» ≤ b.start) ∧
      ∀ s ∈ ss, s.start ≤ s.«end» := by
  induction ss with
  | nil => exact fun _ _ _ => ⟨List.Pairwise.nil, by simp⟩
  | cons s rest ih =>
    intro hshape hpw hm
    rw [List.map_cons, List.flatten_cons] at hpw hm
    obtain ⟨pws, pwrest, cross⟩ := List.pairwise_append.mp hpw
    have hms : ∀ w ∈ s.words, w.start ≤ w.«end» :=
      fun w hw => hm w (List.mem_append_left _ hw)
    have hmrest : ∀ w ∈ (rest.map MergedSegment.words).flatten,
        w.start ≤ w.«end» :=
      fun w hw => hm w (List.mem_append_right _ hw)
    obtain ⟨hneS, hstartS, hendS⟩ :=
      hshape s (List.mem_cons_self s rest)
    obtain ⟨hprest, hmemrest⟩ :=
      ih (fun x hx => hshape x (List.mem_cons_of_mem s hx)) pwrest hmrest
    refine ⟨List.Pairwise.cons (fun s' hs' => ?_) hprest, ?_⟩
    · obtain ⟨hneS', hstartS', _⟩ :=
        hshape s' (List.mem_cons_of_mem s hs')
      rw [hendS, hstartS']
      refine cross _ (getLastD_mem _ _ hneS) _ ?_
      refine List.mem_flatten.mpr ⟨s'.words, List.mem_map_of_mem _ hs', ?_⟩
      exact headD_mem _ _ hneS'
    · intro x hx
      rcases List.mem_cons.mp hx with rfl | hx'
      · rw [hstartS, hendS]
        exact head_start_le_last_end x.words default default hneS pws hms
      · exact hmemrest x hx'

/-- Pairwise separation plus ordered intervals gives ordering by start time. -/
theorem pairwise_start_le (ss : List MergedSegment)
    (hp : ss.Pairwise (fun a b => a.«end» ≤ b.start))
    (hm : ∀ s ∈ ss, s.start ≤ s.«end») :
    ss.Pairwise (fun a b => a.start ≤ b.start) := by
  induction ss with
  | nil => exact List.Pairwise.nil
  | cons a tl ih =>
    obtain ⟨ha, hp'⟩ := List.pairwise_cons.mp hp
    refine List.Pairwise.cons (fun b hb => ?_)
      (ih hp' (fun s hs => hm s (List.mem_cons_of_mem a hs)))
    exact le_trans (hm a (List.mem_cons_self a tl)) (ha b hb)

theorem word_level_merge_segments (t : TranscriptResult) (d : DiarizeResult)
    (h : ¬ (flattenWords t).isEmpty = true) :
    (ResultMerger.word_level_merge t d).segments =
      groupLoop none [] [] ((flattenWords t).map (fun w =>
        (w, ResultMerger.find_speaker_at ((w.start + w.«end») / 2)
          d.segments))) := by
  simp [ResultMerger.word_level_merge, h]

/-- C1: for any transcript with temporally valid words and any non-empty
span list, the merged segments carry every input word exactly once in input
order, are pairwise non-overlapping, ordered by start time, and have ordered
intervals. -/
theorem merge_word_partition (t : TranscriptResult) (d : DiarizeResult)
    (hne : d.segments ≠ [])
    (hw : WordsOK (flattenWords t)) :
    (((ResultMerger.merge t (some d)).segments.map
        MergedSegment.words).flatten = flattenWords t) ∧
    (ResultMerger.merge t (some d)).segments.Pairwise
      (fun a b => a.«end» ≤ b.start) ∧
    (ResultMerger.merge t (some d)).segments.Pairwise
      (fun a b => a.start ≤ b.start) ∧
    ∀ s ∈ (ResultMerger.merge t (some d)).segments, s.start ≤ s.«end» := by
  have hisE : ¬ d.segments.isEmpty = true := by
    simpa [List.isEmpty_iff] using hne
  have hmerge : ResultMerger.merge t (some d) =
      ResultMerger.word_level_merge t d := by
    simp [ResultMerger.merge, hisE]
  rw [hmerge]
  by_cases hwe : (flattenWords t).isEmpty = true
  · have : (ResultMerger.word_level_merge t d).segments = [] := by
      simp [ResultMerger.word_level_merge, hwe, List.isEmpty_iff.mp hwe]
    rw [this]
    refine ⟨?_, List.Pairwise.nil, List.Pairwise.nil, by simp⟩
    simp [List.isEmpty_iff.mp hwe]
  · rw [word_level_merge_segments t d hwe]
    have hflat := groupLoop_words_flatten
      ((flattenWords t).map (fun w =>
        (w, ResultMerger.find_speaker_at ((w.start + w.«end») / 2)
          d.segments))) none [] []
    have hfst : ((flattenWords t).map (fun w =>
        (w, ResultMerger.find_speaker_at ((w.start + w.«end») / 2)
          d.segments))).map Prod.fst = flattenWords t := by
      rw [List.map_map]
      exact List.map_id _
    rw [hfst, List.nil_append] at hflat
    have hshape := groupLoop_blockOK
      ((flattenWords t).map (fun w =>
        (w, ResultMerger.find_speaker_at ((w.start + w.«end») / 2)
          d.segments))) none [] []
    have hpw : (((groupLoop none [] []
        ((flattenWords t).map (fun w =>
          (w, ResultMerger.find_speaker_at ((w.start + w.«end») / 2)
            d.segments)))).map MergedSegment.words).flatten).Pairwise
        (fun a b => a.«end» ≤ b.start) := by
      rw [hflat]
      exact wordsOK_pairwise _ hw
    have hmm : ∀ w ∈ ((groupLoop none [] []
        ((flattenWords t).map (fun w =>
          (w, ResultMerger.find_speaker_at ((w.start + w.«end») / 2)
            d.segments)))).map MergedSegment.words).flatten,
        w.start ≤ w.«end» := by
      rw [hflat]
      exact hw.1
    obtain ⟨hp, hse⟩ := blocks_pairwise _ hshape hpw hmm
    exact ⟨hflat, hp, pairwise_start_le _ hp hse, hse⟩

/-- Scenario A transcript (time unit 1/20 s): one segment "hello world"
with two words. -/
def c1t : TranscriptResult :=
  { segments :=
      [{ text := "hello world", start := 0, «end» := 20,
         words := [{ word := "hello", start := 0, «end» := 8 },
                   { word := "world", start := 10, «end» := 20 }] }],
    language := "en", duration := 20 }

/-- Scenario A spans (time unit 1/20 s): two speakers split at 9. -/
def c1d : DiarizeResult :=
  { segments := [{ speaker := "SPEAKER_0", start := 0, «end» := 9 },
                 { speaker := "SPEAKER_1", start := 9, «end» := 20 }],
    num_speakers := 2 }

/-- Witness for C1 at Scenario A. -/
theorem merge_word_partition_witness :
    c1d.segments ≠ [] ∧ WordsOK (flattenWords c1t) ∧
    ((((ResultMerger.merge c1t (some c1d)).segments.map
        MergedSegment.words).flatten = flattenWords c1t) ∧
    (ResultMerger.merge c1t (some c1d)).segments.Pairwise
      (fun a b => a.«end» ≤ b.start) ∧
    (ResultMerger.merge c1t (some c1d)).segments.Pairwise
      (fun a b => a.start ≤ b.start) ∧
    ∀ s ∈ (ResultMerger.merge c1t (some c1d)).segments,
      s.start ≤ s.«end») := by
  have hw : WordsOK (flattenWords c1t) :=
    ⟨by decide, List.Chain.cons (by decide) List.Chain.nil⟩
  exact ⟨by decide, hw, merge_word_partition c1t c1d (by decide) hw⟩

/-- Error taxonomy (src/utils/exceptions.py).  All are direct subclasses of
the umbrella `YouTubeSTTError`; in particular `ModelLoadError` and
`CancelledError` are NOT subclasses of `DiarizeError`.  `pipelineErr` is the
bare `YouTubeSTTError` that `Pipeline.run` raises when it wraps an
unexpected (non-`YouTubeSTTError`) exception (pipeline.py:212-214). -/
inductive AppError
  | cancelled
  | downloadErr
  | preprocessErr
  | transcribeErr
  | diarizeErr
  | mergeErr
  | modelLoadErr
  | pipelineErr
deriving DecidableEq, Repr

/-- Target sample rate, 16 kHz (preprocessor.py:15). -/
def TARGET_SAMPLE_RATE : ℕ := 16000

/-- Clipping threshold (preprocessor.py:18). -/
def CLIP_THRESHOLD : ℚ := 99/100

/-- `np.max(np.abs(data))` over a buffer.  All mapped values are
non-negative, so for a non-empty buffer the fold base 0 is absorbed and this
equals numpy's maximum; numpy raises on an empty buffer, for which this
returns 0 and the threshold test below is false either way. -/
def peakAbs (data : List ℚ) : ℚ :=
  (data.map (fun x => |x|)).foldr max 0

/-- `AudioPreprocessor._prevent_clipping` (preprocessor.py:130-137). -/
def AudioPreprocessor.prevent_clipping (data : List ℚ) : List ℚ :=
  let peak := peakAbs data
  if CLIP_THRESHOLD < peak then
    data.map (fun x => x * (CLIP_THRESHOLD / peak))
  else
    data

/-- `np.linspace(0, 1, n)`: n equally spaced points from 0 to 1
(0 points: empty; 1 point: just 0). -/
def linspace01 (n : ℕ) : List ℚ :=
  if n ≤ 1 then List.replicate n 0
  else (List.range n).map (fun i => (i : ℚ) / ((n : ℚ) - 1))

/-- `np.interp x xp fp` over the knot list `(xp, fp)` zipped pairwise:
clamped at both ends, linear between consecutive knots. -/
def interpPts (x : ℚ) : List (ℚ × ℚ) → ℚ
  | [] => 0
  | [p] => p.2
  | p :: q :: rest =>
    if x ≤ p.1 then p.2
    else if x ≤ q.1 then p.2 + (q.2 - p.2) * (x - p.1) / (q.1 - p.1)
    else interpPts x (q :: rest)

/-- `AudioPreprocessor._resample` (preprocessor.py:100-113): identity when
the rates agree, otherwise linear interpolation of the samples over a
normalized [0,1] axis at `int(len(data)/src_rate * target_rate)` points. -/
def AudioPreprocessor.resample (data : List ℚ) (src_rate target_rate : ℕ) :
    List ℚ :=
  if src_rate = target_rate then data
  else
    let target_length := data.length * target_rate / src_rate
    data.length |> fun n =>
      (linspace01 target_length).map (fun x => interpPts x ((linspace01 n).zip data))

/-- Raw decoded audio: 1-D mono samples or 2-D frames×channels
(numpy shape `(n,)` or `(n, ch)`). -/
inductive AudioData
  | mono (samples : List ℚ)
  | multi (frames : List (List ℚ))

/-- `AudioPreprocessor._to_mono` (preprocessor.py:93-98): channel mean. -/
def AudioPreprocessor.to_mono : AudioData → List ℚ
  | .mono s => s
  | .multi frames => frames.map (fun fr => fr.sum / (fr.length : ℚ))

/-- `AudioPreprocessor._normalize_volume` (preprocessor.py:115-128).
`sqrtFn` abstracts the floating-point square root in the RMS computation
(irrational in general, hence a parameter of the model).  With
TARGET_DB = -20 the applied gain `10 ** ((TARGET_DB - 20*log10(rms)) / 20)`
equals `(1/10) / rms` exactly, which is the form embedded here. -/
def AudioPreprocessor.normalize_volume (sqrtFn : ℚ → ℚ) (data : List ℚ) :
    List ℚ :=
  let rms := sqrtFn (((data.map (fun x => x^2)).sum) / (data.length : ℚ))
  if rms < 1 / 10^10 then data
  else data.map (fun x => x * (1/10 / rms))

/-- One run of `AudioPreprocessor.process` (preprocessor.py:32-91).
`cancel i` is the value of the shared cancellation flag at the i-th
`_check_cancelled` call; the five checks happen after load, mono conversion,
resampling, normalization and clip prevention, in that order
(preprocessor.py:54,59,64,69,74), and the output WAV is written only after
the fifth check (preprocessor.py:78).  The first component models the output
file: `none` means no file was written.  A `CancelledError` is re-raised
as-is, never wrapped into `PreprocessError` (preprocessor.py:86-87). -/
def AudioPreprocessor.process (inputExists : Bool) (input : AudioData)
    (src_rate : ℕ) (sqrtFn : ℚ → ℚ) (cancel : ℕ → Bool) :
    Option (List ℚ) × Except AppError (List ℚ) :=
  if ¬ inputExists then (none, .error .preprocessErr)
  else if cancel 0 then (none, .error .cancelled)
  else
    let d1 := AudioPreprocessor.to_mono input
    if cancel 1 then (none, .error .cancelled)
    else
      let d2 := AudioPreprocessor.resample d1 src_rate TARGET_SAMPLE_RATE
      if cancel 2 then (none, .error .cancelled)
      else
        let d3 := AudioPreprocessor.normalize_volume sqrtFn d2
        if cancel 3 then (none, .error .cancelled)
        else
          let d4 := AudioPreprocessor.prevent_clipping d3
          if cancel 4 then (none, .error .cancelled)
          else (some d4, .ok d4)

theorem peakAbs_nonneg (data : List ℚ) : 0 ≤ peakAbs data := by
  induction data with
  | nil => simp [peakAbs]
  | cons a l ih =>
    simp only [peakAbs, List.map_cons, List.foldr_cons]
    exact le_trans ih (le_max_right _ _)

theorem peakAbs_map_mul (data : List ℚ) (k : ℚ) (hk : 0 ≤ k) :
    peakAbs (data.map (fun x => x * k)) = peakAbs data * k := by
  induction data with
  | nil => simp [peakAbs]
  | cons a l ih =>
    simp only [peakAbs, List.map_cons, List.foldr_cons] at ih ⊢
    rw [ih, abs_mul, abs_of_nonneg hk, max_mul_of_nonneg _ _ hk]

/-- C6: clipping prevention scales by `threshold / peak` exactly when the
peak exceeds the 0.99 threshold, the resulting peak is the minimum of the
old peak and the threshold (so it equals the threshold exactly whenever
scaling occurred), and a second application changes nothing. -/
theorem prevent_clipping_idempotent (data : List ℚ) :
    AudioPreprocessor.prevent_clipping data =
      (if CLIP_THRESHOLD < peakAbs data then
        data.map (fun x => x * (CLIP_THRESHOLD / peakAbs data))
      else data) ∧
    peakAbs (AudioPreprocessor.prevent_clipping data) =
      min (peakAbs data) CLIP_THRESHOLD ∧
    AudioPreprocessor.prevent_clipping
        (AudioPreprocessor.prevent_clipping data) =
      AudioPreprocessor.prevent_clipping data := by
  have hc : (0 : ℚ) < CLIP_THRESHOLD := by norm_num [CLIP_THRESHOLD]
  have hmin : peakAbs (AudioPreprocessor.prevent_clipping data) =
      min (peakAbs data) CLIP_THRESHOLD := by
    by_cases h : CLIP_THRESHOLD < peakAbs data
    · have hp : (0 : ℚ) < peakAbs data := lt_trans hc h
      have hp' : peakAbs data ≠ 0 := ne_of_gt hp
      simp only [AudioPreprocessor.prevent_clipping, if_pos h]
      rw [peakAbs_map_mul _ _ (le_of_lt (div_pos hc hp)),
        min_eq_right (le_of_lt h)]
      field_simp
    · simp only [AudioPreprocessor.prevent_clipping, if_neg h]
      rw [min_eq_left (le_of_not_lt h)]
  refine ⟨rfl, hmin, ?_⟩
  have hle : ¬ CLIP_THRESHOLD <
      peakAbs (AudioPreprocessor.prevent_clipping data) := by
    rw [hmin]
    exact not_lt.mpr (min_le_right _ _)
  generalize hy : AudioPreprocessor.prevent_clipping data = y at hle ⊢
  simp only [AudioPreprocessor.prevent_clipping, if_neg hle]

/-- C7: resampling audio already at the 16 kHz target rate is the
identity transform. -/
theorem resample_identity_at_target_rate (data : List ℚ) :
    AudioPreprocessor.resample data TARGET_SAMPLE_RATE TARGET_SAMPLE_RATE =
      data := by
  simp [AudioPreprocessor.resample]

/-- C4: if the cancellation flag is observed set at any of the five check
points, `process` raises the distinct Cancelled outcome (not a preprocessing
failure) and no output file is written. -/
theorem preprocess_cancel_no_file (inputExists : Bool) (input : AudioData)
    (src_rate : ℕ) (sqrtFn : ℚ → ℚ) (cancel : ℕ → Bool)
    (hex : inputExists = true) (hc : ∃ i, i ≤ 4 ∧ cancel i = true) :
    AudioPreprocessor.process inputExists input src_rate sqrtFn cancel =
      (none, Except.error AppError.cancelled) := by
  subst hex
  obtain ⟨i, hi, hci⟩ := hc
  by_cases h0 : cancel 0 = true
  · simp [AudioPreprocessor.process, h0]
  · by_cases h1 : cancel 1 = true
    · simp [AudioPreprocessor.process, h0, h1]
    · by_cases h2 : cancel 2 = true
      · simp [AudioPreprocessor.process, h0, h1, h2]
      · by_cases h3 : cancel 3 = true
        · simp [AudioPreprocessor.process, h0, h1, h2, h3]
        · by_cases h4 : cancel 4 = true
          · simp [AudioPreprocessor.process, h0, h1, h2, h3, h4]
          · exfalso
            interval_cases i <;> simp_all

/-- Cancellation flag for the C4 witness: becomes set from the third check
point on. -/
def c4cancel (i : ℕ) : Bool :=
  decide (2 ≤ i)

/-- Witness for C4: flag set at check point 2 (during resampling). -/
theorem preprocess_cancel_no_file_witness :
    (∃ i, i ≤ 4 ∧ c4cancel i = true) ∧
    AudioPreprocessor.process true (AudioData.mono [0]) 44100 id c4cancel =
      (none, Except.error AppError.cancelled) :=
  ⟨⟨2, by decide, by decide⟩,
    preprocess_cancel_no_file true (AudioData.mono [0]) 44100 id c4cancel
      rfl ⟨2, by decide, by decide⟩⟩

/-- The distinct raw speaker labels of a span list (`speakers_set`,
diarizer.py:144-152). -/
def rawSpeakers (segs : List DiarizeSegment) : List String :=
  (segs.map DiarizeSegment.speaker).dedup

/-- `sorted(speakers_set)` (diarizer.py:156): the distinct raw labels in
ascending lexicographic order. -/
def sortedSpeakers (segs : List DiarizeSegment) : List String :=
  List.insertionSort (· ≤ ·) (rawSpeakers segs)

/-- The canonical relabelling `speaker_map.get(s, s)` built by enumerating
the sorted distinct raw labels (diarizer.py:154-159). -/
def canonLabel (sorted : List String) (s : String) : String :=
  if s ∈ sorted then "SPEAKER_" ++ toString (sorted.indexOf s) else s

/-- Label canonicalization applied to every span (diarizer.py:158-159). -/
def canonicalizeSegs (segs : List DiarizeSegment) : List DiarizeSegment :=
  segs.map (fun g =>
    { g with speaker := canonLabel (sortedSpeakers segs) g.speaker })

/-- C9: canonicalization is stable and order-independent — two span lists
that are permutations of each other produce the same sorted distinct raw
label list, hence assign the same canonical label to every raw identity;
and the i-th sorted raw identity receives the sequential label
`SPEAKER_i`. -/
theorem canonical_labels_stable (segs1 segs2 : List DiarizeSegment)
    (hperm : segs1.Perm segs2) :
    sortedSpeakers segs1 = sortedSpeakers segs2 ∧
    (∀ s : String, canonLabel (sortedSpeakers segs1) s =
      canonLabel (sortedSpeakers segs2) s) ∧
    ∀ i (h : i < (sortedSpeakers segs1).length),
      canonLabel (sortedSpeakers segs1) ((sortedSpeakers segs1).get ⟨i, h⟩) =
        "SPEAKER_" ++ toString i := by
  have hd : (segs1.map DiarizeSegment.speaker).dedup.Perm
      (segs2.map DiarizeSegment.speaker).dedup :=
    (hperm.map DiarizeSegment.speaker).dedup
  have hsorted : sortedSpeakers segs1 = sortedSpeakers segs2 := by
    refine List.eq_of_perm_of_sorted
      (((List.perm_insertionSort _ _).trans hd).trans
        (List.perm_insertionSort _ _).symm)
      (List.sorted_insertionSort _ _) (List.sorted_insertionSort _ _)
  refine ⟨hsorted, fun s => by rw [hsorted], fun i h => ?_⟩
  have hnd : (sortedSpeakers segs1).Nodup :=
    ((List.perm_insertionSort _ _).nodup_iff).mpr (List.nodup_dedup _)
  have hmem : (sortedSpeakers segs1).get ⟨i, h⟩ ∈ sortedSpeakers segs1 :=
    List.get_mem _ _ _
  simp only [canonLabel, if_pos hmem]
  have hidx := List.indexOf_getElem hnd i h
  simp only [List.get_eq_getElem]
  rw [hidx]

/-- Two concrete span lists that are permutations of each other, with raw
pyannote-style labels. -/
def c9a : List DiarizeSegment :=
  [{ speaker := "SPEAKER_01", start := 5, «end» := 9 },
   { speaker := "SPEAKER_00", start := 0, «end» := 5 }]

def c9b : List DiarizeSegment :=
  [{ speaker := "SPEAKER_00", start := 0, «end» := 5 },
   { speaker := "SPEAKER_01", start := 5, «end» := 9 }]

/-- Witness for C9 at a concrete permuted pair. -/
theorem canonical_labels_stable_witness :
    sortedSpeakers c9a = sortedSpeakers c9b ∧
    (∀ s : String, canonLabel (sortedSpeakers c9a) s =
      canonLabel (sortedSpeakers c9b) s) ∧
    ∀ i (h : i < (sortedSpeakers c9a).length),
      canonLabel (sortedSpeakers c9a) ((sortedSpeakers c9a).get ⟨i, h⟩) =
        "SPEAKER_" ++ toString i :=
  canonical_labels_stable c9a c9b (by decide)

/-- `DeviceConfig` (device.py:15-23). -/
structure DeviceConfig where
  device : String
  compute_type : String
  whisper_model : String
  recommended_beam_size : Int := 5
  gpu_name : String := ""
  gpu_memory_gb : ℚ := 0
deriving DecidableEq, Repr

/-- `DeviceManager._select_by_vram` (device.py:92-110): model profile,
compute type and beam size by VRAM tier. -/
def DeviceManager.select_by_vram (gpu_mem_gb : ℚ) : String × String × Int :=
  if 12 ≤ gpu_mem_gb then ("large-v3", "float16", 5)
  else if 8 ≤ gpu_mem_gb then ("distil-large-v3", "float16", 3)
  else if 6 ≤ gpu_mem_gb then ("small", "float16", 3)
  else ("small", "int8", 1)

/-- `DeviceManager.detect` (device.py:29-90).  `gpu = some (name, mem)`
models an available CUDA device with its name and total memory in GB;
`none` models no usable GPU (torch missing, detection failure or
`cuda.is_available()` false), which takes the CPU fallback path. -/
def DeviceManager.detect (force_cpu : Bool) (whisper_model_override : String)
    (gpu : Option (String × ℚ)) : DeviceConfig :=
  if force_cpu then
    { device := "cpu", compute_type := "int8"
      whisper_model :=
        if whisper_model_override ≠ "" then whisper_model_override
        else "small"
      recommended_beam_size := 1 }
  else
    match gpu with
    | some (name, mem) =>
      let msel := DeviceManager.select_by_vram mem
      { device := "cuda", compute_type := msel.2.1
        whisper_model :=
          if whisper_model_override ≠ "" then whisper_model_override
          else msel.1
        recommended_beam_size := msel.2.2
        gpu_name := name, gpu_memory_gb := mem }
    | none =>
      { device := "cpu", compute_type := "int8"
        whisper_model :=
          if whisper_model_override ≠ "" then whisper_model_override
          else "small"
        recommended_beam_size := 1 }

/-- Pipeline stages (pipeline.py:23-33). -/
inductive PipelineStage
  | INIT
  | DOWNLOAD
  | PREPROCESS
  | DIARIZE
  | TRANSCRIBE
  | MERGE
  | OUTPUT
  | DONE
  | ERROR
deriving DecidableEq, Repr

/-- One `_notify` record: stage, progress ratio, message
(pipeline.py:220-223). -/
structure Notif where
  stage : PipelineStage
  progress : ℚ
  message : String
deriving DecidableEq, Repr

/-- `PipelineConfig` (pipeline.py:36-50). -/
structure PipelineConfig where
  url : String
  language : String := "auto"
  num_speakers : Option Int := none
  output_format : String := "txt"
  output_dir : String := ""
  enable_diarization : Bool := true
  use_vad : Bool := true
  high_accuracy : Bool := false
  low_power : Bool := false
  hf_token : String := ""
  whisper_model : String := ""
  beam_size : Int := 0
deriving Repr

/-- Parameters the pipeline hands to the transcriber
(pipeline.py:167-189). -/
structure TranscribeCall where
  model : String
  beam_size : Int
  word_timestamps : Bool
  use_vad : Bool
deriving DecidableEq, Repr

/-- Environment of one `Pipeline.run`: configuration, detected device
config, the (constant) value of the cancellation flag, local pyannote model
availability, and the outcome each collaborator stage would produce if
invoked. -/
structure RunEnv where
  config : PipelineConfig
  device : DeviceConfig
  cancelled : Bool
  hasLocalModel : Bool
  downloadOutcome : Except AppError String
  preprocessOutcome : Except AppError String
  diarizeOutcome : Except AppError DiarizeResult
  transcribeOutcome : Except AppError TranscriptResult

/-- Result of a modelled run: the orchestrator's stage notifications, the
transcriber invocation if one happened, and the final outcome. -/
structure RunResult where
  notifs : List Notif
  transcribeCall : Option TranscribeCall
  result : Except AppError MergedResult

/-- Whisper model override (pipeline.py:154-157): a non-empty configured
model name replaces the detected device config's model. -/
def effectiveDevice (env : RunEnv) : DeviceConfig :=
  if env.config.whisper_model ≠ "" then
    { env.device with whisper_model := env.config.whisper_model }
  else env.device

/-- Beam-size resolution (pipeline.py:160-164): a positive configured
beam size wins over the device recommendation. -/
def effectiveBeamSize (env : RunEnv) : Int :=
  if env.config.beam_size > 0 then env.config.beam_size
  else (effectiveDevice env).recommended_beam_size

/-- The transcriber invocation parameters (pipeline.py:167-189):
word timestamps are requested only when diarization produced spans. -/
def pipelineCall (env : RunEnv) (diarize_result : Option DiarizeResult) :
    TranscribeCall :=
  ⟨(effectiveDevice env).whisper_model, effectiveBeamSize env,
    (match diarize_result with
      | some r => !r.segments.isEmpty
      | none => false),
    env.config.use_vad⟩

/-- Stages 5-7 of `Pipeline.run` (pipeline.py:152-208): cancellation check,
model override, beam-size resolution, transcription, merge and completion.
`notifs` are the notifications emitted so far and `diarize_result` the
diarization stage's outcome. -/
def runTail (env : RunEnv) (notifs : List Notif)
    (diarize_result : Option DiarizeResult) : RunResult :=
  if env.cancelled then ⟨notifs, none, .error .cancelled⟩
  else
    let n := notifs ++ [⟨.TRANSCRIBE, 0, "STT 시작..."⟩]
    let call := pipelineCall env diarize_result
    match env.transcribeOutcome with
    | .error e => ⟨n, some call, .error e⟩
    | .ok transcript =>
      if env.cancelled then ⟨n, some call, .error .cancelled⟩
      else
        ⟨n ++ [⟨.MERGE, 0, "결과 병합 중..."⟩, ⟨.MERGE, 1, "병합 완료"⟩,
            ⟨.DONE, 1, "처리 완료"⟩],
          some call, .ok (ResultMerger.merge transcript diarize_result)⟩

/-- `Pipeline.run` (pipeline.py:81-214).  The collaborators' stage-internal
progress callbacks are environmental and not modelled; the orchestrator's
own fixed `_notify` calls are.  The elapsed-seconds suffix of the DONE
message is dropped, and the ERROR message's interpolated exception text is
abbreviated to its class name.  At the diarization stage only `DiarizeError`
is caught and the fallback notification emitted (pipeline.py:135-140), but
the `finally` clause then calls `diarizer.unload_model()`
(pipeline.py:141-142) and `SpeakerDiarizer` defines no such method
(diarizer.py has only `load_model`, `diarize` and helpers), so every
attempted diarization run raises `AttributeError` there — superseding any
in-flight uncaught exception — which falls to the generic handler
(pipeline.py:212-214): an ERROR notification and a wrapped bare
`YouTubeSTTError`.  The run therefore never reaches the transcription
stage when diarization was attempted; it reaches it on the two
skip paths. -/
def Pipeline.run (env : RunEnv) : RunResult :=
  let n0 := [Notif.mk .INIT 0 "파이프라인 초기화..."]
  if env.cancelled then ⟨n0, none, .error .cancelled⟩
  else
    let n1 := n0 ++ [⟨.DOWNLOAD, 0, "다운로드 시작..."⟩]
    match env.downloadOutcome with
    | .error e => ⟨n1, none, .error e⟩
    | .ok _raw_audio =>
      if env.cancelled then ⟨n1, none, .error .cancelled⟩
      else
        let n2 := n1 ++ [⟨.PREPROCESS, 0, "오디오 전처리 시작..."⟩]
        match env.preprocessOutcome with
        | .error e => ⟨n2, none, .error e⟩
        | .ok _processed =>
          if env.cancelled then ⟨n2, none, .error .cancelled⟩
          else
            let can_diarize := env.config.enable_diarization &&
              (env.config.hf_token != "" || env.hasLocalModel)
            if can_diarize then
              let n3 := n2 ++ [⟨.DIARIZE, 0, "화자 분리 시작..."⟩]
              let n4 :=
                match env.diarizeOutcome with
                | .ok _ => n3
                | .error .diarizeErr =>
                  n3 ++ [⟨.DIARIZE, 1, "화자 분리 실패 - 단일 화자로 처리"⟩]
                | .error _ => n3
              ⟨n4 ++ [⟨.ERROR, 0, "오류: AttributeError"⟩], none,
                .error .pipelineErr⟩
            else if env.config.enable_diarization then
              runTail env
                (n2 ++ [⟨.DIARIZE, 1, "HF 토큰/로컬 모델 없음 - 화자 분리 건너뜀"⟩])
                none
            else
              runTail env (n2 ++ [⟨.DIARIZE, 1, "화자 분리 건너뜀"⟩]) none

theorem runTail_call_spec (env : RunEnv) (notifs : List Notif)
    (dres : Option DiarizeResult) (c : TranscribeCall)
    (h : (runTail env notifs dres).transcribeCall = some c) :
    c.beam_size = effectiveBeamSize env ∧
    c.model = (effectiveDevice env).whisper_model := by
  cases hcv : env.cancelled with
  | true => simp [runTail, hcv] at h
  | false =>
    cases htr : env.transcribeOutcome with
    | error e =>
      simp [runTail, hcv, htr, pipelineCall] at h
      exact ⟨h ▸ rfl, h ▸ rfl⟩
    | ok tr =>
      simp [runTail, hcv, htr, pipelineCall] at h
      exact ⟨h ▸ rfl, h ▸ rfl⟩

theorem run_call_spec (env : RunEnv) (c : TranscribeCall)
    (h : (Pipeline.run env).transcribeCall = some c) :
    c.beam_size = effectiveBeamSize env ∧
    c.model = (effectiveDevice env).whisper_model := by
  cases hcv : env.cancelled with
  | true => simp [Pipeline.run, hcv] at h
  | false =>
    cases hdl : env.downloadOutcome with
    | error e => simp [Pipeline.run, hcv, hdl] at h
    | ok p =>
      cases hpp : env.preprocessOutcome with
      | error e => simp [Pipeline.run, hcv, hdl, hpp] at h
      | ok q =>
        cases hen : env.config.enable_diarization with
        | false =>
          exact runTail_call_spec env _ none c
            (by simpa [Pipeline.run, hcv, hdl, hpp, hen] using h)
        | true =>
          by_cases htok : env.config.hf_token = ""
          · cases hloc : env.hasLocalModel with
            | false =>
              exact runTail_call_spec env _ none c
                (by simpa [Pipeline.run, hcv, hdl, hpp, hen, htok, hloc]
                  using h)
            | true =>
              simp [Pipeline.run, hcv, hdl, hpp, hen, htok, hloc] at h
          · simp [Pipeline.run, hcv, hdl, hpp, hen, htok] at h

/-- C8: an explicit override always beats the hardware-tier recommendation —
a non-empty manual whisper-model override is the selected model for every
detected memory value (and for forced CPU or no GPU), and whenever the
pipeline invokes the transcriber with a positive configured beam size, the
invocation uses that beam size (and the overridden model when one is
configured). -/
theorem override_precedence :
    (∀ (force_cpu : Bool) (ov : String) (gpu : Option (String × ℚ)),
      ov ≠ "" → (DeviceManager.detect force_cpu ov gpu).whisper_model = ov) ∧
    (∀ (env : RunEnv) (c : TranscribeCall),
      (Pipeline.run env).transcribeCall = some c →
      (env.config.beam_size > 0 → c.beam_size = env.config.beam_size) ∧
      (env.config.whisper_model ≠ "" →
        c.model = env.config.whisper_model)) := by
  constructor
  · intro force_cpu ov gpu hov
    cases force_cpu with
    | true => simp [DeviceManager.detect, hov]
    | false =>
      cases gpu with
      | none => simp [DeviceManager.detect, hov]
      | some g => simp [DeviceManager.detect, hov]
  · intro env c h
    obtain ⟨hb, hm⟩ := run_call_spec env c h
    constructor
    · intro hbs
      rw [hb, effectiveBeamSize, if_pos hbs]
    · intro hov
      rw [hm]
      simp [effectiveDevice, hov]

/-- Concrete environment for the C8 witness: beam size 3 and model
"large-v3" configured, diarization disabled, all stages succeed. -/
def c8env : RunEnv :=
  { config := { url := "u", whisper_model := "large-v3", beam_size := 3,
                enable_diarization := false }
    device := { device := "cpu", compute_type := "int8",
                whisper_model := "small", recommended_beam_size := 1 }
    cancelled := false
    hasLocalModel := false
    downloadOutcome := .ok "raw"
    preprocessOutcome := .ok "pre"
    diarizeOutcome := .error .diarizeErr
    transcribeOutcome := .ok { segments := [] } }

/-- Witness for C8: the overridden model wins on a 16 GB GPU, and the
pipeline's transcriber call uses the configured beam size and model. -/
theorem override_precedence_witness :
    (DeviceManager.detect false "medium" (some ("GPU", 16))).whisper_model =
      "medium" ∧
    (TranscribeCall.mk "large-v3" 3 false true).beam_size =
      c8env.config.beam_size ∧
    (TranscribeCall.mk "large-v3" 3 false true).model =
      c8env.config.whisper_model :=
  ⟨override_precedence.1 false "medium" (some ("GPU", 16)) (by decide),
    (override_precedence.2 c8env (TranscribeCall.mk "large-v3" 3 false true)
      rfl).1 (by decide),
    (override_precedence.2 c8env (TranscribeCall.mk "large-v3" 3 false true)
      rfl).2 (by decide)⟩

/-- C3 (code bug): the spec requires a diarization-specific error to
degrade the run to single-speaker output and continue, and pipeline.py's
own `except DiarizeError` handler (pipeline.py:135-140) clearly intends
that; but the `finally` clause then calls the nonexistent
`SpeakerDiarizer.unload_model` (pipeline.py:142), so the run aborts with a
wrapped pipeline error after the fallback notification and never reaches
the transcription stage. -/
theorem diarize_error_aborts_run (env : RunEnv)
    (hcan : env.cancelled = false)
    (hen : env.config.enable_diarization = true)
    (hcred : env.config.hf_token ≠ "" ∨ env.hasLocalModel = true)
    (hdl : ∃ p, env.downloadOutcome = Except.ok p)
    (hpp : ∃ p, env.preprocessOutcome = Except.ok p)
    (hdi : env.diarizeOutcome = Except.error AppError.diarizeErr) :
    (Pipeline.run env).result = Except.error AppError.pipelineErr ∧
    (⟨PipelineStage.DIARIZE, 1, "화자 분리 실패 - 단일 화자로 처리"⟩ : Notif) ∈
      (Pipeline.run env).notifs ∧
    (⟨PipelineStage.ERROR, 0, "오류: AttributeError"⟩ : Notif) ∈
      (Pipeline.run env).notifs ∧
    (Pipeline.run env).transcribeCall = none := by
  obtain ⟨p1, h1⟩ := hdl
  obtain ⟨p2, h2⟩ := hpp
  have hcd : (env.config.enable_diarization &&
      (env.config.hf_token != "" || env.hasLocalModel)) = true := by
    rcases hcred with hh | hh <;> simp [hen, hh]
  simp only [Pipeline.run, hcan, h1, h2, hdi, hcd,
    Bool.false_eq_true, if_false, if_true]
  refine ⟨by simp, by simp, by simp, by simp⟩

/-- Transcript for the C3 witness. -/
def c3transcript : TranscriptResult :=
  { segments := [{ text := "hi", start := 0, «end» := 1, words := [] }],
    language := "en", duration := 1 }

/-- Concrete environment for the C3 witness — the failing input of the
code bug: diarization enabled with an HF token, diarizer raises a
`DiarizeError`, everything else succeeds. -/
def c3env : RunEnv :=
  { config := { url := "u", hf_token := "tok" }
    device := { device := "cpu", compute_type := "int8",
                whisper_model := "small", recommended_beam_size := 1 }
    cancelled := false
    hasLocalModel := false
    downloadOutcome := .ok "raw"
    preprocessOutcome := .ok "pre"
    diarizeOutcome := .error .diarizeErr
    transcribeOutcome := .ok c3transcript }

/-- Witness for C3 at the concrete environment: the failing input of the
code bug, evaluated through the model. -/
theorem diarize_error_aborts_run_witness :
    c3env.cancelled = false ∧
    c3env.config.enable_diarization = true ∧
    c3env.diarizeOutcome = Except.error AppError.diarizeErr ∧
    ((Pipeline.run c3env).result = Except.error AppError.pipelineErr ∧
    (⟨PipelineStage.DIARIZE, 1, "화자 분리 실패 - 단일 화자로 처리"⟩ : Notif) ∈
      (Pipeline.run c3env).notifs ∧
    (⟨PipelineStage.ERROR, 0, "오류: AttributeError"⟩ : Notif) ∈
      (Pipeline.run c3env).notifs ∧
    (Pipeline.run c3env).transcribeCall = none) :=
  ⟨rfl, rfl, rfl,
    diarize_error_aborts_run c3env rfl rfl
      (Or.inl (by decide)) ⟨"raw", rfl⟩ ⟨"pre", rfl⟩ rfl⟩
